import Mathlib

/-!
Shallow embedding of the `users` identity microservice, checked against its
specification.  The embedding covers:

* the pattern-based route parser (`src/controller/routes.rs`, `src/router.rs`);
* the role-based ACL engine (`src/repos/acl/acl.rs`);
* the password hash format and its verification
  (`password_verify` in `src/services/jwt/mod.rs`,
   `password_create` in `src/repos/repo_factory.rs`);
* the email/password token path (`create_token_email` in
  `src/services/jwt/mod.rs`);
* the federated-provider reconciliation flow (`ProfileService` in
  `src/services/jwt/mod.rs`) and the profile merge functions
  (`GoogleID::update_user`, `FacebookID::update_user` in
  `src/services/jwt.rs`).

External crates (the SHA-3 digest, the JWT signer, the regex engine) are
modelled as parameters or as abstract matcher functions; everything the
repository itself computes is embedded as executable Lean definitions.
-/

deriving instance DecidableEq for Except

namespace UsersSvc

/-! ## Route parser

From `src/controller/routes.rs`.  A registered rule is a `(Regex, Box<Fn>)`
pair; the regex engine is external, so a rule's pattern is embedded as the
function `matcher : String → Option (List String)` returning the captured
groups on a match, and the extractor as `converter : List String → Option Route`.
`RouteParser::test` folds over the rules exactly as the Rust `fold` does. -/

/-- `Route` from `src/controller/routes.rs` (`UserId` is an `i32`, embedded
as `Int`). -/
inductive Route where
  | Healthcheck
  | Users
  | User (id : Int)
  | Current
  | JWTEmail
  | JWTGoogle
  | JWTFacebook
  deriving DecidableEq, Repr

/-- A registered routing rule: pattern matcher (abstracting the regex and its
capture groups) plus params converter, as stored in
`RouteParser.regex_and_converters`. -/
structure RoutingRule where
  matcher : String → Option (List String)
  converter : List String → Option Route

/-- What a single rule yields on a path: the captured groups fed to the
converter (`get_matches(...).and_then(converter)`). -/
def ruleYield (r : RoutingRule) (path : String) : Option Route :=
  (r.matcher path).bind r.converter

/-- One step of the `fold` in `RouteParser::test`: keep an already-found
route (`if acc.is_some() { return acc }`), otherwise try the next rule. -/
def routeStep (path : String) (acc : Option Route) (r : RoutingRule) : Option Route :=
  if acc.isSome then acc else ruleYield r path

/-- `RouteParser::test` from `src/controller/routes.rs` lines 89-98:
fold over the registered rules, keeping the first `Some` produced. -/
def testRoute (rules : List RoutingRule) (path : String) : Option Route :=
  rules.foldl (routeStep path) none

/-- Decimal value of a digit run. -/
def digitsToNat (cs : List Char) : Nat :=
  cs.foldl (fun n c => n * 10 + (c.toNat - 48)) 0

/-- Character-list prefix test (`str::starts_with`). -/
def startsWithChars : List Char → List Char → Bool
  | _, [] => true
  | [], _ :: _ => false
  | c :: cs, p :: ps => c == p && startsWithChars cs ps

/-- `string_id.parse::<i32>().ok()` on a `(\d+)` capture: all-digit,
non-empty, and within `i32` range. -/
def parseI32 (s : String) : Option Int :=
  if s.data ≠ [] ∧ s.data.all Char.isDigit then
    let n := digitsToNat s.data
    if n ≤ 2147483647 then some (Int.ofNat n) else none
  else none

/-- Matcher embedding the regex `^/users/(\d+)$`: matches iff the path is
`/users/` followed by one or more digits, capturing the digit run. -/
def usersIdMatcher (path : String) : Option (List String) :=
  if startsWithChars path.data "/users/".data then
    let rest := path.data.drop 7
    if rest ≠ [] ∧ rest.all Char.isDigit then some [String.mk rest] else none
  else none

/-- The `/users/:id` rule registered by `create_route_parser`
(`src/controller/routes.rs` lines 139-144). -/
def usersIdRule : RoutingRule :=
  { matcher := usersIdMatcher
    converter := fun params => (params.get? 0).bind (fun s => (parseI32 s).map Route.User) }

/-- A catch-all style rule matching any `/users/…` suffix, used to exercise
the fallthrough-on-reject behaviour of `RouteParser::test`. -/
def usersCatchAllRule : RoutingRule :=
  { matcher := fun path =>
      if startsWithChars path.data "/users/".data then some [] else none
    converter := fun _ => some Route.Users }

/-! ## ACL engine

From `src/repos/acl/acl.rs`.  The permission table is the `acls` field of
`AclImpl` (a `HashMap<Role, Vec<Permission>>`, embedded as an association
list); `CachedRoles::get` is external to the engine, so the acting user's
roles are a parameter. -/

/-- `Resource` from `models/authorization` (used in `acl.rs`). -/
inductive Resource where
  | Users
  | UserRoles
  deriving DecidableEq, Repr

/-- `Action` from `models/authorization`; the glossary lists
Read, Create, Update, Delete and All. -/
inductive Action where
  | All
  | Read
  | Create
  | Update
  | Delete
  deriving DecidableEq, Repr

/-- `Scope` from `models/authorization`. -/
inductive Scope where
  | All
  | Owned
  deriving DecidableEq, Repr

/-- `Role` from `models/authorization`; `acl.rs` uses `Role::Superuser` and
`Role::User`. -/
inductive Role where
  | Superuser
  | User
  deriving DecidableEq, Repr

/-- `Permission` triple from `models/authorization`. -/
structure Permission where
  resource : Resource
  action : Action
  scope : Scope
  deriving DecidableEq, Repr

/-- A `&WithScope` trait object: anything that can answer
`is_in_scope(scope, user_id)`. -/
structure ScopedResource where
  is_in_scope : Scope → Int → Bool

/-- The `WithScope` impl for `User` (`src/models/user/user.rs` lines 84-91):
`Scope::All` always holds, `Scope::Owned` holds iff the acting user id equals
the record's owner id. -/
def ownedBy (owner : Int) : ScopedResource :=
  { is_in_scope := fun scope userId =>
      match scope with
      | Scope.All => true
      | Scope.Owned => owner == userId }

/-- `HashMap::get` on the permission table (association-list embedding). -/
def lookupRole (acls : List (Role × List Permission)) (r : Role) :
    Option (List Permission) :=
  match acls with
  | [] => none
  | (k, v) :: rest => if k = r then some v else lookupRole rest r

/-- The static permission table built in `AclImpl::new`
(`src/repos/acl/acl.rs` lines 66-84); `permission!(r)` expands to
`(r, Action::All, Scope::All)`. -/
def aclHash : List (Role × List Permission) :=
  [ (Role.Superuser,
      [ ⟨Resource.Users, Action.All, Scope.All⟩,
        ⟨Resource.UserRoles, Action.All, Scope.All⟩ ]),
    (Role.User,
      [ ⟨Resource.Users, Action.Read, Scope.All⟩,
        ⟨Resource.Users, Action.All, Scope.Owned⟩,
        ⟨Resource.UserRoles, Action.Read, Scope.Owned⟩ ]) ]

/-- `AclImpl::can` (`src/repos/acl/acl.rs` lines 86-102): flat-map every held
role to its permissions (missing table entry ⇒ empty list, the
`unwrap_or(&empty)`), keep permissions whose resource matches and whose
action matches exactly or is `All`, then keep those for which every supplied
scoped resource is in the permission's scope for the acting user; the answer
is whether any permission survives (`count() > 0`). -/
def can (acls : List (Role × List Permission)) (roles : List Role)
    (userId : Int) (resource : Resource) (action : Action)
    (ctxs : List ScopedResource) : Bool :=
  let gathered := roles.flatMap (fun role => (lookupRole acls role).getD [])
  let matching := gathered.filter (fun p =>
    p.resource == resource && (p.action == action || p.action == Action.All))
  let surviving := matching.filter (fun p =>
    ctxs.all (fun res => res.is_in_scope p.scope userId))
  surviving.length > 0

/-! ## Password hash format

On-disk format `base64(Hash(password + salt)) + "." + salt`.
`password_create` is in `src/repos/repo_factory.rs` (lines 567-575),
`password_verify` in `src/services/jwt/mod.rs` (lines 280-294).  The SHA3-256
digest comes from the external `sha3` crate and is a parameter
`h : List Char → List Nat` (bytes) of the embedding; the `base64` crate's
standard-alphabet encode/decode is embedded concretely below. -/

/-- Standard base64 alphabet: sextet value to character. -/
def sextetChar (v : Nat) : Char :=
  if v < 26 then Char.ofNat (65 + v)
  else if v < 52 then Char.ofNat (97 + (v - 26))
  else if v < 62 then Char.ofNat (48 + (v - 52))
  else if v = 62 then '+'
  else '/'

/-- Standard base64 alphabet: character back to sextet value (`None` for a
character outside the alphabet, including `=` and `.`). -/
def charSextet (c : Char) : Option Nat :=
  if 'A' ≤ c ∧ c ≤ 'Z' then some (c.toNat - 65)
  else if 'a' ≤ c ∧ c ≤ 'z' then some (c.toNat - 97 + 26)
  else if '0' ≤ c ∧ c ≤ '9' then some (c.toNat - 48 + 52)
  else if c = '+' then some 62
  else if c = '/' then some 63
  else none

/-- `base64::encode` (standard alphabet, with `=` padding) on a byte list. -/
def b64encode : List Nat → List Char
  | [] => []
  | [a] => [sextetChar (a / 4), sextetChar (a % 4 * 16), '=', '=']
  | [a, b] => [sextetChar (a / 4), sextetChar (a % 4 * 16 + b / 16),
               sextetChar (b % 16 * 4), '=']
  | a :: b :: c :: rest =>
      sextetChar (a / 4) :: sextetChar (a % 4 * 16 + b / 16) ::
      sextetChar (b % 16 * 4 + c / 64) :: sextetChar (c % 64) ::
      b64encode rest

/-- `base64::decode` (standard alphabet, `=` padding allowed only at the
end), returning `none` on malformed input. -/
def b64decode : List Char → Option (List Nat)
  | [] => some []
  | c1 :: c2 :: c3 :: c4 :: rest =>
      (charSextet c1).bind fun v1 =>
      (charSextet c2).bind fun v2 =>
      if c3 = '=' then
        if c4 = '=' ∧ rest = [] then some [v1 * 4 + v2 / 16] else none
      else
        (charSextet c3).bind fun v3 =>
        if c4 = '=' then
          if rest = [] then some [v1 * 4 + v2 / 16, v2 % 16 * 16 + v3 / 4]
          else none
        else
          (charSextet c4).bind fun v4 =>
          (b64decode rest).map fun bs =>
            (v1 * 4 + v2 / 16) :: (v2 % 16 * 16 + v3 / 4) :: (v3 % 4 * 64 + v4) :: bs
  | _ => none

/-- Rust's `str::split('.').collect::<Vec<_>>()`: split a character list at
every `'.'`; the number of parts is always one more than the number of
separators. -/
def splitDot : List Char → List (List Char)
  | [] => [[]]
  | c :: rest =>
      if c = '.' then [] :: splitDot rest
      else
        match splitDot rest with
        | [] => [[c]]
        | p :: ps => (c :: p) :: ps

/-- The service error taxonomy (`src/services/error.rs`, mirrored from usage
in `src/services/jwt/mod.rs`): validation errors carry field → (code,
message) entries, as built by the `validation_errors!` macro. -/
inductive SvcError where
  | Validate (entries : List (String × String × String))
  | Parse (msg : String)
  | HttpClient (msg : String)
  | Database (msg : String)
  deriving DecidableEq, Repr

/-- The error `password_verify` returns on a malformed stored hash. -/
def wrongFormatErr : SvcError :=
  SvcError.Validate [("password", "password", "Password in db has wrong format")]

/-- The error `create_token_email` returns both when no identity exists and
when the password does not verify. -/
def incorrectCredsErr : SvcError :=
  SvcError.Validate [("email", "email", "Email or password are incorrect")]

/-- `password_verify` from `src/services/jwt/mod.rs` lines 280-294: split the
stored value on `'.'`; unless exactly two parts result, fail with a
validation error; otherwise recompute `h(clear_password + salt)`,
base64-decode the stored digest (decode failure is the same validation
error), and compare. -/
def password_verify (h : List Char → List Nat)
    (dbHash clearPassword : List Char) : Except SvcError Bool :=
  let v := splitDot dbHash
  if v.length ≠ 2 then Except.error wrongFormatErr
  else
    let salt := v.getD 1 []
    let out := h (clearPassword ++ salt)
    match b64decode (v.getD 0 []) with
    | none => Except.error wrongFormatErr
    | some storedDigest => Except.ok (storedDigest == out)

/-- `password_create` from `src/repos/repo_factory.rs` lines 567-575 with the
randomly generated salt made a parameter:
`base64(h(clear_password + salt)) + "." + salt`. -/
def password_create (h : List Char → List Nat)
    (clearPassword salt : List Char) : List Char :=
  b64encode (h (clearPassword ++ salt)) ++ '.' :: salt

/-! ## Identity / user data model and repositories

`Provider` and `Gender` enums are from `src/models/identity` and
`src/models/user` (variants as used across the sources).  The repository
implementations (`repos/users.rs`, `repos/identities.rs`) are not under
`src/`; their store semantics are modelled from the spec (§3 data model and
§4.4 ordering invariants) as list-backed state. -/

/-- `Provider` from `src/models/identity` (variants used in the sources:
`Email`, `UnverifiedEmail`, `Google`, `Facebook`). -/
inductive Provider where
  | Email
  | UnverifiedEmail
  | Google
  | Facebook
  deriving DecidableEq, Repr

/-- `Gender` from `src/models/user` (variants used in the sources; `Undefined`
is the unpopulated value). -/
inductive Gender where
  | Undefined
  | Male
  | Female
  deriving DecidableEq, Repr

/-- The identity row as used by `src/services/jwt/mod.rs`
(`user_id`, `user_email`, `user_password`, `provider`; the password is
optional — absent for rows created via a federated provider). -/
structure IdentityRow where
  user_id : Int
  user_email : String
  user_password : Option (List Char)
  provider : Provider
  deriving DecidableEq, Repr

/-- `NewIdentity` payload for the email/password token path
(`src/models/identity`): email plus cleartext password. -/
structure NewIdentityPayload where
  email : String
  password : List Char

/-- `User` from `src/models/user/user.rs` (timestamps embedded as `Nat`). -/
structure UserRow where
  id : Int
  email : String
  email_verified : Bool
  phone : Option String
  phone_verified : Bool
  is_active : Bool
  first_name : Option String
  last_name : Option String
  middle_name : Option String
  gender : Gender
  birthdate : Option Nat
  last_login_at : Nat
  created_at : Nat
  updated_at : Nat
  deriving DecidableEq, Repr

/-- `NewUser` from `src/models/user/user.rs`. -/
structure NewUserPayload where
  email : String
  phone : Option String
  first_name : Option String
  last_name : Option String
  middle_name : Option String
  gender : Gender
  birthdate : Option Nat
  last_login_at : Nat
  deriving DecidableEq, Repr

/-- `UpdateUser` as populated by the profile merge code in
`src/services/jwt.rs` (every field set; timestamps as `Nat`). -/
structure UpdateUserPayload where
  email : String
  phone : Option String
  first_name : Option String
  last_name : Option String
  middle_name : Option String
  gender : Gender
  birthdate : Option Nat
  last_login_at : Nat
  deriving DecidableEq, Repr

/-- The persistent store backing the repos: user rows, identity rows, and the
next serial user id.  Modelled from the spec: §3 — "Identity:
(user_id, email, optional password hash, provider …)", "User: profile
record", created during signup, updated during provider-merge. -/
structure Store where
  users : List UserRow
  identities : List IdentityRow
  nextUserId : Int
  deriving DecidableEq, Repr

/-- Modelled from the spec: `IdentitiesRepo::email_provider_exists`
(`repos/identities.rs` is not under `src/`) — whether an identity row exists
for the (email, provider) pair. -/
def identEmailProviderExists (email : String) (prov : Provider)
    (st : Store) : Bool :=
  st.identities.any (fun i => i.user_email == email && i.provider == prov)

/-- Modelled from the spec: `IdentitiesRepo::find_by_email_provider` — the
identity row for the (email, provider) pair (unique by the §3 invariant). -/
def identFindByEmailProvider (email : String) (prov : Provider)
    (st : Store) : Option IdentityRow :=
  st.identities.find? (fun i => i.user_email == email && i.provider == prov)

/-- Modelled from the spec: `IdentitiesRepo::create` — append the new
identity row and return it. -/
def identCreate (email : String) (password : Option (List Char))
    (prov : Provider) (userId : Int) (st : Store) : IdentityRow × Store :=
  let row : IdentityRow :=
    { user_id := userId, user_email := email,
      user_password := password, provider := prov }
  (row, { st with identities := st.identities ++ [row] })

/-- Modelled from the spec: `UsersRepo::email_exists` — whether a user row
with this email exists. -/
def usersEmailExists (email : String) (st : Store) : Bool :=
  st.users.any (fun u => u.email == email)

/-- Modelled from the spec: `UsersRepo::find_by_email`. -/
def usersFindByEmail (email : String) (st : Store) : Option UserRow :=
  st.users.find? (fun u => u.email == email)

/-- Modelled from the spec: `UsersRepo::create` — insert a user row under the
next serial id with the `NewUser` fields. -/
def usersCreate (nu : NewUserPayload) (st : Store) : UserRow × Store :=
  let row : UserRow :=
    { id := st.nextUserId, email := nu.email, email_verified := false,
      phone := nu.phone, phone_verified := false, is_active := true,
      first_name := nu.first_name, last_name := nu.last_name,
      middle_name := nu.middle_name, gender := nu.gender,
      birthdate := nu.birthdate, last_login_at := nu.last_login_at,
      created_at := 0, updated_at := 0 }
  (row, { st with users := st.users ++ [row], nextUserId := st.nextUserId + 1 })

/-- Apply an `UpdateUser` changeset to an existing user row. -/
def applyUpdate (u : UserRow) (up : UpdateUserPayload) : UserRow :=
  { u with
    email := up.email, phone := up.phone, first_name := up.first_name,
    last_name := up.last_name, middle_name := up.middle_name,
    gender := up.gender, birthdate := up.birthdate,
    last_login_at := up.last_login_at }

/-- Modelled from the spec: `UsersRepo::update` — update the row with the
given id in place and return the updated row. -/
def usersUpdate (userId : Int) (up : UpdateUserPayload)
    (st : Store) : Option (UserRow × Store) :=
  (st.users.find? (fun u => u.id == userId)).map fun u =>
    let updated := applyUpdate u up
    (updated,
     { st with users := st.users.map (fun v => if v.id == userId then updated else v) })

/-! ## Email/password token path

`create_token_email` from `src/services/jwt/mod.rs` lines 201-250.  The JWT
signer (`jsonwebtoken::encode`, an external crate) is the parameter `enc`;
an `Except.error` is a returned service error, while the *outer* `none`
marks a panic (the `identity.user_password.unwrap()` on line 226 aborts the
pipeline instead of producing an error). -/

/-- A minted token (`JWT { token }`). -/
structure JWTToken where
  token : String
  deriving DecidableEq, Repr

/-- `create_token_email` (`src/services/jwt/mod.rs` lines 201-250):
if no identity exists for (email, `Provider::Email`) fail with the generic
credentials error; otherwise fetch the identity, `unwrap()` its stored
password (panic — outer `none` — when the password is absent), verify the
supplied cleartext against it, fail with the same generic error on
mismatch, and on success sign the email into a token (signing failure is a
`Parse` error). -/
def create_token_email (h : List Char → List Nat)
    (enc : String → Option String) (payload : NewIdentityPayload)
    (st : Store) : Option (Except SvcError JWTToken) :=
  if identEmailProviderExists payload.email Provider.Email st = false then
    some (Except.error incorrectCredsErr)
  else
    match identFindByEmailProvider payload.email Provider.Email st with
    | none => some (Except.error (SvcError.Database "identity not found"))
    | some identity =>
      match identity.user_password with
      | none => none
      | some dbHash =>
        match password_verify h dbHash payload.password with
        | Except.error e => some (Except.error e)
        | Except.ok false => some (Except.error incorrectCredsErr)
        | Except.ok true =>
          match enc payload.email with
          | none => some (Except.error (SvcError.Parse "Couldn't encode jwt"))
          | some t => some (Except.ok { token := t })

/-! ## Federated-provider reconciliation

`ProfileService` from `src/services/jwt/mod.rs` lines 67-196.  The service is
generic over a profile type with `get_email` (trait `Email`),
`NewUser::from` and `merge_into_user` (trait `IntoUser`, whose impls live in
`services/jwt/model.rs`, not under `src/`); a profile is therefore embedded
as a record of those three capabilities.  The HTTP fetch of the profile is
external, so the fetched profile is an input. -/

/-- A fetched provider profile, as the generic `ProfileService` sees it:
its canonical email, its `NewUser::from` image, and its
`merge_into_user` function. -/
structure ProviderProfile where
  email : String
  toNewUser : NewUserPayload
  mergeIntoUser : UserRow → UpdateUserPayload

/-- `ProfileService::create_profile` (`src/services/jwt/mod.rs` lines
136-152): create the user from the profile, then create the linking
identity — with the provider hardcoded to `Provider::Facebook` and no
password — and return the identity's email. -/
def create_profile (p : ProviderProfile) (st : Store) : String × Store :=
  let (user, st1) := usersCreate p.toNewUser st
  let (row, st2) := identCreate p.email none Provider.Facebook user.id st1
  (row.user_email, st2)

/-- `ProfileService::update_profile` (`src/services/jwt/mod.rs` lines
154-170): find the user by the profile's email, merge the profile into it,
persist the update, and return the updated user's email.  No identity row is
touched. -/
def update_profile (p : ProviderProfile) (st : Store) :
    Except SvcError (String × Store) :=
  match usersFindByEmail p.email st with
  | none => Except.error (SvcError.Database "user not found")
  | some user =>
    match usersUpdate user.id (p.mergeIntoUser user) st with
    | none => Except.error (SvcError.Database "user not found")
    | some (updated, st1) => Except.ok (updated.email, st1)

/-- `ProfileService::create_or_update_profile` (`src/services/jwt/mod.rs`
lines 172-187): if no user exists with the profile's email, create user and
identity; otherwise update the existing user. -/
def create_or_update_profile (p : ProviderProfile) (st : Store) :
    Except SvcError (String × Store) :=
  if usersEmailExists p.email st = false then Except.ok (create_profile p st)
  else update_profile p st

/-- The reconciliation core of `ProfileService::create_token`
(`src/services/jwt/mod.rs` lines 100-128), up to the shared JWT-minting
tail: if an identity already exists for (profile.email, provider) the
canonical email is the profile's email and the store is untouched;
otherwise run `create_or_update_profile`.  `create_token_google` passes
`Provider::Google`, `create_token_facebook` passes `Provider::Facebook`. -/
def create_token_provider (prov : Provider) (p : ProviderProfile)
    (st : Store) : Except SvcError (String × Store) :=
  if identEmailProviderExists p.email prov st then Except.ok (p.email, st)
  else create_or_update_profile p st

/-! ## Profile merge (`src/services/jwt.rs`)

`GoogleID::update_user` (lines 54-77) and `FacebookID::update_user`
(lines 113-141).  `Gender::from_str` lives in the `models/user` module file
that is not under `src/`; it is a parameter `fromStr`, and the `unwrap()` on
its result is modelled by an `Option` return (`none` = panic). -/

/-- The Google profile payload (`GoogleID` in `src/services/jwt.rs`). -/
structure GoogleID where
  family_name : String
  name : String
  picture : String
  email : String
  given_name : String
  id : String
  hd : String
  verified_email : Bool

/-- The Facebook profile payload (`FacebookID` in `src/services/jwt.rs`). -/
structure FacebookID where
  id : String
  email : String
  gender : String
  first_name : String
  last_name : String
  name : String

/-- `GoogleID::update_user` (`src/services/jwt.rs` lines 54-77): keep the
user's first/last name when present, else adopt the profile's `name` /
`family_name`; phone, middle name, gender and birthdate always keep the
user's values. -/
def googleUpdateUser (now : Nat) (g : GoogleID) (user : UserRow) :
    UpdateUserPayload :=
  let first_name := if user.first_name.isNone then some g.name else user.first_name
  let last_name := if user.last_name.isNone then some g.family_name else user.last_name
  { email := g.email, phone := user.phone, first_name := first_name,
    last_name := last_name, middle_name := user.middle_name,
    gender := user.gender, birthdate := user.birthdate, last_login_at := now }

/-- `FacebookID::update_user` (`src/services/jwt.rs` lines 113-141): keep the
user's first/last name when present, else adopt the profile's; keep the
user's gender when it is not `Undefined`, else parse the profile's gender
string (the `unwrap()` on the parse is the `none` case). -/
def facebookUpdateUser (now : Nat) (fromStr : String → Option Gender)
    (f : FacebookID) (user : UserRow) : Option UpdateUserPayload :=
  let first_name := if user.first_name.isNone then some f.first_name else user.first_name
  let last_name := if user.last_name.isNone then some f.last_name else user.last_name
  let genderParsed :=
    if user.gender = Gender.Undefined then fromStr f.gender else some user.gender
  genderParsed.map fun gender =>
    { email := f.email, phone := user.phone, first_name := first_name,
      last_name := last_name, middle_name := user.middle_name,
      gender := gender, birthdate := user.birthdate, last_login_at := now }

/-! ## Theorems: route parser -/

theorem foldl_routeStep_some (path : String) (rules : List RoutingRule)
    (v : Route) : rules.foldl (routeStep path) (some v) = some v := by
  induction rules with
  | nil => rfl
  | cons r rest ih => simpa [routeStep] using ih

theorem testRoute_nil (path : String) : testRoute [] path = none := rfl

theorem testRoute_cons (r : RoutingRule) (rules : List RoutingRule)
    (path : String) :
    testRoute (r :: rules) path =
      match ruleYield r path with
      | some v => some v
      | none => testRoute rules path := by
  unfold testRoute
  rw [List.foldl_cons]
  cases hy : ruleYield r path with
  | none => simp [routeStep, hy]
  | some v => simp [routeStep, hy, foldl_routeStep_some]

/-- C3: resolution tries rules in registration order; a rule whose pattern
matches but whose extractor rejects does not stop iteration — the first rule
that both matches and extracts wins; `None` (RouteNotFound) is returned
exactly when no registered rule yields a route. -/
theorem route_fallthrough_on_reject (rs1 : List RoutingRule) (r : RoutingRule)
    (rs2 : List RoutingRule) (path : String)
    (hskip : ∀ r' ∈ rs1, ruleYield r' path = none)
    (hhit : (ruleYield r path).isSome = true) :
    testRoute (rs1 ++ r :: rs2) path = ruleYield r path ∧
    (∀ rules : List RoutingRule,
      (testRoute rules path = none ↔ ∀ r' ∈ rules, ruleYield r' path = none)) := by
  constructor
  · induction rs1 with
    | nil =>
        rw [List.nil_append, testRoute_cons]
        cases hy : ruleYield r path with
        | none => rw [hy] at hhit; simp at hhit
        | some v => simp
    | cons a rest ih =>
        rw [List.cons_append, testRoute_cons, hskip a (by simp)]
        exact ih (fun r' hr' => hskip r' (by simp [hr']))
  · intro rules
    induction rules with
    | nil => simp [testRoute_nil]
    | cons a rest ih =>
        rw [testRoute_cons]
        cases hy : ruleYield a path with
        | none => simpa [hy] using ih
        | some v => simp [hy]

/-- C3 witness: the `/users/(\d+)` rule matches
`"/users/99999999999999999999"` syntactically but its `i32` conversion
rejects the capture, so resolution falls through to the later catch-all
rule. -/
theorem route_fallthrough_on_reject_witness :
    (∀ r' ∈ [usersIdRule], ruleYield r' "/users/99999999999999999999" = none) ∧
    (ruleYield usersCatchAllRule "/users/99999999999999999999").isSome = true ∧
    testRoute [usersIdRule, usersCatchAllRule] "/users/99999999999999999999" =
      some Route.Users :=
  ⟨by decide, by decide,
    by
      have h := route_fallthrough_on_reject [usersIdRule] usersCatchAllRule []
        "/users/99999999999999999999" (by decide) (by decide)
      have hy : ruleYield usersCatchAllRule "/users/99999999999999999999" =
          some Route.Users := by decide
      simpa [hy] using h.1⟩

/-! ## Theorems: ACL engine -/

theorem can_iff_exists (acls : List (Role × List Permission)) (roles : List Role)
    (u : Int) (res : Resource) (act : Action) (ctxs : List ScopedResource) :
    can acls roles u res act ctxs = true ↔
      ∃ p : Permission,
        p ∈ roles.flatMap (fun role => (lookupRole acls role).getD []) ∧
        (p.resource = res ∧ (p.action = act ∨ p.action = Action.All)) ∧
        (∀ c ∈ ctxs, c.is_in_scope p.scope u = true) := by
  unfold can
  simp only [gt_iff_lt, decide_eq_true_eq, List.length_pos_iff_exists_mem,
    List.mem_filter, Bool.and_eq_true, Bool.or_eq_true, beq_iff_eq,
    List.all_eq_true]
  constructor
  · rintro ⟨p, ⟨⟨hmem, hres, hact⟩, hscope⟩⟩
    exact ⟨p, hmem, ⟨hres, hact⟩, hscope⟩
  · rintro ⟨p, hmem, ⟨hres, hact⟩, hscope⟩
    exact ⟨p, ⟨⟨hmem, hres, hact⟩, hscope⟩⟩

/-- C4: with the static table, a user holding role `User` is allowed iff
some permission of that role matches the resource, matches the action
exactly or via `All`, and has every supplied target context in scope for the
acting user (an empty context list satisfies any scope).  In particular
`can(5, Users, Read, [])`, `can(5, Users, Delete, [owned by 5])` and
`can(5, Users, Delete, [owned by 7])` come out true, true, false. -/
theorem acl_user_role_can_iff :
    (∀ (u : Int) (res : Resource) (act : Action) (ctxs : List ScopedResource),
      can aclHash [Role.User] u res act ctxs = true ↔
        ∃ p : Permission,
          p ∈ (lookupRole aclHash Role.User).getD [] ∧
          (p.resource = res ∧ (p.action = act ∨ p.action = Action.All)) ∧
          (∀ c ∈ ctxs, c.is_in_scope p.scope u = true)) ∧
    can aclHash [Role.User] 5 Resource.Users Action.Read [] = true ∧
    can aclHash [Role.User] 5 Resource.Users Action.Delete [ownedBy 5] = true ∧
    can aclHash [Role.User] 5 Resource.Users Action.Delete [ownedBy 7] = false := by
  refine ⟨fun u res act ctxs => ?_, by decide, by decide, by decide⟩
  rw [can_iff_exists]
  simp

theorem flatMap_perms_filter (acls : List (Role × List Permission)) (r : Role)
    (h : lookupRole acls r = none) (roles : List Role) :
    roles.flatMap (fun role => (lookupRole acls role).getD []) =
      (roles.filter (fun r' => r' != r)).flatMap
        (fun role => (lookupRole acls role).getD []) := by
  induction roles with
  | nil => rfl
  | cons a rest ih =>
      by_cases ha : a = r
      · subst ha; simp [h, ih]
      · simp [ha, ih]

/-- C10: a held role that is absent from the permission table contributes no
permissions — the missing `HashMap` entry is replaced by the empty list — so
`can` behaves exactly as if the user did not hold that role, and a user
holding only such a role is denied. -/
theorem acl_unknown_role_denied (acls : List (Role × List Permission))
    (roles : List Role) (r : Role) (u : Int) (res : Resource) (act : Action)
    (ctxs : List ScopedResource) (h : lookupRole acls r = none) :
    can acls roles u res act ctxs =
      can acls (roles.filter (fun r' => r' != r)) u res act ctxs ∧
    can acls [r] u res act ctxs = false := by
  constructor
  · unfold can
    rw [flatMap_perms_filter acls r h roles]
  · unfold can
    simp [h]

/-- A permission table holding only the `Superuser` entry, making the held
role `User` a missing table entry. -/
def aclSuperOnly : List (Role × List Permission) :=
  [ (Role.Superuser,
      [ ⟨Resource.Users, Action.All, Scope.All⟩,
        ⟨Resource.UserRoles, Action.All, Scope.All⟩ ]) ]

/-- C10 witness: with the `User` entry missing from the table, a user
holding `[Superuser, User]` is treated exactly as one holding
`[Superuser]`, and one holding only `User` is denied. -/
theorem acl_unknown_role_denied_witness :
    lookupRole aclSuperOnly Role.User = none ∧
    can aclSuperOnly [Role.Superuser, Role.User] 5 Resource.Users Action.Read [] =
      can aclSuperOnly
        ([Role.Superuser, Role.User].filter (fun r' => r' != Role.User))
        5 Resource.Users Action.Read [] ∧
    can aclSuperOnly [Role.User] 5 Resource.Users Action.Read [] = false :=
  ⟨by decide,
    (acl_unknown_role_denied aclSuperOnly [Role.Superuser, Role.User] Role.User
      5 Resource.Users Action.Read [] (by decide)).1,
    (acl_unknown_role_denied aclSuperOnly [Role.Superuser, Role.User] Role.User
      5 Resource.Users Action.Read [] (by decide)).2⟩

/-! ## Theorems: password hash format -/

theorem charSextet_sextetChar :
    ∀ v : Nat, v < 64 → charSextet (sextetChar v) = some v := by decide

theorem sextetChar_ne_dot (v : Nat) : sextetChar v ≠ '.' := by
  by_cases h : v < 64
  · intro hc
    have h1 := charSextet_sextetChar v h
    rw [hc] at h1
    have h2 : charSextet '.' = none := by decide
    rw [h2] at h1
    cases h1
  · unfold sextetChar
    have h1 : ¬ v < 26 := by omega
    have h2 : ¬ v < 52 := by omega
    have h3 : ¬ v < 62 := by omega
    have h4 : ¬ v = 62 := by omega
    simp [h1, h2, h3, h4]

theorem sextetChar_ne_padEq (v : Nat) (h : v < 64) : sextetChar v ≠ '=' := by
  intro hc
  have h1 := charSextet_sextetChar v h
  rw [hc] at h1
  have h2 : charSextet '=' = none := by decide
  rw [h2] at h1
  cases h1

theorem b64encode_no_dot (bs : List Nat) : ∀ c ∈ b64encode bs, c ≠ '.' := by
  induction bs using b64encode.induct with
  | case1 => simp [b64encode]
  | case2 a => simp [b64encode, sextetChar_ne_dot]
  | case3 a b => simp [b64encode, sextetChar_ne_dot]
  | case4 a b c rest ih =>
      simp [b64encode, sextetChar_ne_dot]
      exact ih

theorem b64_roundtrip (bs : List Nat) (hb : ∀ b ∈ bs, b < 256) :
    b64decode (b64encode bs) = some bs := by
  induction bs using b64encode.induct with
  | case1 => rfl
  | case2 a =>
      have ha : a < 256 := hb a (by simp)
      have h1 : a / 4 < 64 := by omega
      have h2 : a % 4 * 16 < 64 := by omega
      simp [b64encode, b64decode, charSextet_sextetChar _ h1,
        charSextet_sextetChar _ h2]
      omega
  | case3 a b =>
      have ha : a < 256 := hb a (by simp)
      have hbb : b < 256 := hb b (by simp)
      have h1 : a / 4 < 64 := by omega
      have h2 : a % 4 * 16 + b / 16 < 64 := by omega
      have h3 : b % 16 * 4 < 64 := by omega
      have hne3 : sextetChar (b % 16 * 4) ≠ '=' := sextetChar_ne_padEq _ h3
      simp [b64encode, b64decode, charSextet_sextetChar _ h1,
        charSextet_sextetChar _ h2, charSextet_sextetChar _ h3, hne3]
      omega
  | case4 a b c rest ih =>
      have ha : a < 256 := hb a (by simp)
      have hbb : b < 256 := hb b (by simp)
      have hc : c < 256 := hb c (by simp)
      have h1 : a / 4 < 64 := by omega
      have h2 : a % 4 * 16 + b / 16 < 64 := by omega
      have h3 : b % 16 * 4 + c / 64 < 64 := by omega
      have h4 : c % 64 < 64 := by omega
      have hne3 : sextetChar (b % 16 * 4 + c / 64) ≠ '=' := sextetChar_ne_padEq _ h3
      have hne4 : sextetChar (c % 64) ≠ '=' := sextetChar_ne_padEq _ h4
      have ihh := ih (fun x hx => hb x (by simp [hx]))
      simp [b64encode, b64decode, charSextet_sextetChar _ h1,
        charSextet_sextetChar _ h2, charSextet_sextetChar _ h3,
        charSextet_sextetChar _ h4, hne3, hne4, ihh]
      refine ⟨by omega, by omega, by omega⟩

theorem splitDot_ne_nil (cs : List Char) : splitDot cs ≠ [] := by
  induction cs with
  | nil => simp [splitDot]
  | cons c rest ih =>
      unfold splitDot
      by_cases h : c = '.'
      · simp [h]
      · simp only [h]
        cases hs : splitDot rest with
        | nil => simp
        | cons p ps => simp [h]

theorem splitDot_no_dot (cs : List Char) (h : ∀ c ∈ cs, c ≠ '.') :
    splitDot cs = [cs] := by
  induction cs with
  | nil => rfl
  | cons c rest ih =>
      have hc : c ≠ '.' := h c (by simp)
      have ihh := ih (fun x hx => h x (by simp [hx]))
      unfold splitDot
      simp only [hc, if_false, ihh]

theorem splitDot_append_dot (xs ys : List Char) (h : ∀ c ∈ xs, c ≠ '.') :
    splitDot (xs ++ '.' :: ys) = xs :: splitDot ys := by
  induction xs with
  | nil => simp [splitDot]
  | cons c rest ih =>
      have hc : c ≠ '.' := h c (by simp)
      have ihh := ih (fun x hx => h x (by simp [hx]))
      simp only [List.cons_append, splitDot, hc, if_false, List.append_eq, ihh]

theorem splitDot_length (cs : List Char) :
    (splitDot cs).length = cs.count '.' + 1 := by
  induction cs with
  | nil => rfl
  | cons c rest ih =>
      unfold splitDot
      by_cases h : c = '.'
      · simp [h, List.count_cons, ih]
      · simp only [h]
        cases hs : splitDot rest with
        | nil => exact absurd hs (splitDot_ne_nil rest)
        | cons p ps =>
            rw [hs] at ih
            simp [List.count_cons, h, ← ih]

theorem password_split (h : List Char → List Nat) (p salt : List Char)
    (hsalt : ∀ c ∈ salt, c ≠ '.') :
    splitDot (password_create h p salt) = [b64encode (h (p ++ salt)), salt] := by
  unfold password_create
  rw [splitDot_append_dot _ _ (b64encode_no_dot _), splitDot_no_dot salt hsalt]

/-- C5: the stored value produced by the documented scheme
`base64(Hash(password + salt)) + "." + salt` verifies against the same
password, and fails to verify against any password whose salted digest
differs from the stored one (the digest function — the external SHA3-256 —
is the parameter `h`; for a dot-free salt and byte-valued digest). -/
theorem password_hash_roundtrip (h : List Char → List Nat)
    (p p2 salt : List Char) (hsalt : ∀ c ∈ salt, c ≠ '.')
    (hb : ∀ b ∈ h (p ++ salt), b < 256) :
    password_verify h (password_create h p salt) p = Except.ok true ∧
    (h (p2 ++ salt) ≠ h (p ++ salt) →
      password_verify h (password_create h p salt) p2 = Except.ok false) := by
  have hsplit := password_split h p salt hsalt
  have hrt := b64_roundtrip (h (p ++ salt)) hb
  constructor
  · unfold password_verify
    rw [hsplit]
    simp [hrt]
  · intro hne
    unfold password_verify
    rw [hsplit]
    simp [hrt]
    exact fun hx => hne hx.symm

/-- C5 witness: with a concrete byte-valued digest function, salt `"42"` and
passwords `"pw1"` / `"pw2"`, the stored value verifies against `"pw1"` and
fails against `"pw2"`. -/
theorem password_hash_roundtrip_witness :
    (∀ c ∈ "42".data, c ≠ '.') ∧
    (∀ b ∈ ("pw1".data ++ "42".data).map (fun c => c.toNat % 256), b < 256) ∧
    ("pw2".data ++ "42".data).map (fun c => c.toNat % 256) ≠
      ("pw1".data ++ "42".data).map (fun c => c.toNat % 256) ∧
    password_verify (fun cs => cs.map (fun c => c.toNat % 256))
      (password_create (fun cs => cs.map (fun c => c.toNat % 256))
        "pw1".data "42".data) "pw1".data = Except.ok true ∧
    password_verify (fun cs => cs.map (fun c => c.toNat % 256))
      (password_create (fun cs => cs.map (fun c => c.toNat % 256))
        "pw1".data "42".data) "pw2".data = Except.ok false :=
  ⟨by decide, by decide, by decide,
    (password_hash_roundtrip (fun cs => cs.map (fun c => c.toNat % 256))
      "pw1".data "pw2".data "42".data (by decide) (by decide)).1,
    (password_hash_roundtrip (fun cs => cs.map (fun c => c.toNat % 256))
      "pw1".data "pw2".data "42".data (by decide) (by decide)).2 (by decide)⟩

/-- C6: a stored hash whose split on `'.'` does not yield exactly two parts
(no separator, or two or more separators — i.e. the dot count is not one)
makes verification fail with the malformed-hash validation error, for every
cleartext password; the embedding is total, so no panic is possible. -/
theorem password_verify_malformed_hash (h : List Char → List Nat)
    (dbHash clear : List Char) (hm : dbHash.count '.' ≠ 1) :
    password_verify h dbHash clear = Except.error wrongFormatErr := by
  unfold password_verify
  rw [if_pos]
  rw [splitDot_length]
  omega

/-- C6 witness: a stored value with zero separators (`"abc"`) and one with
two separators (`"a.b.c"`) both fail with the validation error. -/
theorem password_verify_malformed_hash_witness :
    "abc".data.count '.' ≠ 1 ∧
    password_verify (fun cs => cs.map (fun c => c.toNat % 256)) "abc".data
      "pw".data = Except.error wrongFormatErr ∧
    "a.b.c".data.count '.' ≠ 1 ∧
    password_verify (fun cs => cs.map (fun c => c.toNat % 256)) "a.b.c".data
      "pw".data = Except.error wrongFormatErr :=
  ⟨by decide,
    password_verify_malformed_hash _ "abc".data "pw".data (by decide),
    by decide,
    password_verify_malformed_hash _ "a.b.c".data "pw".data (by decide)⟩

/-! ## Theorems: email/password token path -/

theorem identFind_imp_exists (e : String) (prov : Provider) (st : Store)
    (ident : IdentityRow)
    (h : identFindByEmailProvider e prov st = some ident) :
    identEmailProviderExists e prov st = true := by
  unfold identFindByEmailProvider at h
  have hmem := List.mem_of_find?_eq_some h
  have hp := List.find?_some h
  unfold identEmailProviderExists
  rw [List.any_eq_true]
  exact ⟨ident, hmem, hp⟩

/-- C7: the email/password token path returns the *same* error value —
`Validate` with message "Email or password are incorrect" — both when no
identity exists for (email, `Provider::Email`) and when the identity exists
but the supplied password does not verify, so the two causes are
indistinguishable to the caller. -/
theorem email_token_error_indistinguishable (h : List Char → List Nat)
    (enc : String → Option String) (payload : NewIdentityPayload)
    (st1 st2 : Store) (ident : IdentityRow) (dbHash : List Char)
    (h1 : identEmailProviderExists payload.email Provider.Email st1 = false)
    (h2 : identFindByEmailProvider payload.email Provider.Email st2 = some ident)
    (h3 : ident.user_password = some dbHash)
    (h4 : password_verify h dbHash payload.password = Except.ok false) :
    create_token_email h enc payload st1 = some (Except.error incorrectCredsErr) ∧
    create_token_email h enc payload st2 = some (Except.error incorrectCredsErr) := by
  constructor
  · unfold create_token_email
    rw [h1]
    simp
  · have hex := identFind_imp_exists _ _ _ _ h2
    unfold create_token_email
    rw [hex, h2]
    simp [h3, h4]

/-- Digest stand-in used by concrete witnesses: each character's code point,
reduced to a byte. -/
def byteHash (cs : List Char) : List Nat :=
  cs.map (fun c => c.toNat % 256)

/-- A store with no identity rows at all. -/
def stEmpty : Store := { users := [], identities := [], nextUserId := 1 }

/-- An identity for `a@x.com` via `Provider::Email` whose stored value was
created from password `"pw1"` and salt `"42"`. -/
def emailIdent : IdentityRow :=
  { user_id := 1, user_email := "a@x.com",
    user_password := some (password_create byteHash "pw1".data "42".data),
    provider := Provider.Email }

/-- A store holding only `emailIdent`. -/
def stWithEmailIdent : Store :=
  { users := [], identities := [emailIdent], nextUserId := 2 }

/-- C7 witness: logging in as `a@x.com` with password `"pw2"` yields the
same error against the empty store (no identity) and against the store whose
identity holds the hash of `"pw1"` (wrong password). -/
theorem email_token_error_indistinguishable_witness :
    identEmailProviderExists "a@x.com" Provider.Email stEmpty = false ∧
    identFindByEmailProvider "a@x.com" Provider.Email stWithEmailIdent =
      some emailIdent ∧
    emailIdent.user_password =
      some (password_create byteHash "pw1".data "42".data) ∧
    password_verify byteHash (password_create byteHash "pw1".data "42".data)
      "pw2".data = Except.ok false ∧
    create_token_email byteHash (fun e => some e) ⟨"a@x.com", "pw2".data⟩
      stEmpty = some (Except.error incorrectCredsErr) ∧
    create_token_email byteHash (fun e => some e) ⟨"a@x.com", "pw2".data⟩
      stWithEmailIdent = some (Except.error incorrectCredsErr) :=
  ⟨by decide, by decide, by decide, by decide,
    (email_token_error_indistinguishable byteHash (fun e => some e)
      ⟨"a@x.com", "pw2".data⟩ stEmpty stWithEmailIdent emailIdent
      (password_create byteHash "pw1".data "42".data)
      (by decide) (by decide) (by decide) (by decide)).1,
    (email_token_error_indistinguishable byteHash (fun e => some e)
      ⟨"a@x.com", "pw2".data⟩ stEmpty stWithEmailIdent emailIdent
      (password_create byteHash "pw1".data "42".data)
      (by decide) (by decide) (by decide) (by decide)).2⟩

/-- C9: when the identity found for (email, `Provider::Email`) has no stored
password, `create_token_email` panics on the `unwrap()` (the outer `none` of
the embedding) instead of returning an error. -/
theorem email_token_panics_without_stored_password (h : List Char → List Nat)
    (enc : String → Option String) (payload : NewIdentityPayload) (st : Store)
    (ident : IdentityRow)
    (h2 : identFindByEmailProvider payload.email Provider.Email st = some ident)
    (h3 : ident.user_password = none) :
    create_token_email h enc payload st = none := by
  have hex := identFind_imp_exists _ _ _ _ h2
  unfold create_token_email
  rw [hex, h2]
  simp [h3]

/-- A store whose only identity row for (a@x.com, Email) carries no stored
password. -/
def stNoPassword : Store :=
  { users := [],
    identities := [⟨1, "a@x.com", none, Provider.Email⟩],
    nextUserId := 2 }

/-- C9 witness: an email/password login against the password-less identity
row hits the `unwrap()` panic. -/
theorem email_token_panics_without_stored_password_witness :
    identFindByEmailProvider "a@x.com" Provider.Email stNoPassword =
      some ⟨1, "a@x.com", none, Provider.Email⟩ ∧
    (⟨1, "a@x.com", none, Provider.Email⟩ : IdentityRow).user_password = none ∧
    create_token_email byteHash (fun e => some e) ⟨"a@x.com", "pw".data⟩
      stNoPassword = none :=
  ⟨by decide, by decide,
    email_token_panics_without_stored_password byteHash (fun e => some e)
      ⟨"a@x.com", "pw".data⟩ stNoPassword ⟨1, "a@x.com", none, Provider.Email⟩
      (by decide) (by decide)⟩

/-! ## Theorems: federated-provider reconciliation -/

/-- A concrete Google profile payload for `a@x.com`. -/
def gID : GoogleID :=
  { family_name := "Hopper", name := "Grace", picture := "",
    email := "a@x.com", given_name := "Grace", id := "g1", hd := "",
    verified_email := true }

/-- The `ProviderProfile` the generic `ProfileService` sees for `gID`:
canonical email, `NewUser::from` image, and `merge_into_user`. -/
def gProfile : ProviderProfile :=
  { email := "a@x.com"
    toNewUser :=
      { email := "a@x.com", phone := none, first_name := some "Grace",
        last_name := some "Hopper", middle_name := none,
        gender := Gender.Undefined, birthdate := none, last_login_at := 0 }
    mergeIntoUser := googleUpdateUser 0 gID }

/-- An existing user for `a@x.com` (signed up earlier via Facebook): first
name populated, last name not. -/
def u0 : UserRow :=
  { id := 1, email := "a@x.com", email_verified := true, phone := none,
    phone_verified := false, is_active := true, first_name := some "Ann",
    last_name := none, middle_name := none, gender := Gender.Undefined,
    birthdate := none, last_login_at := 0, created_at := 0, updated_at := 0 }

/-- The Facebook-linking identity row of `u0`. -/
def fbIdentRow : IdentityRow :=
  { user_id := 1, user_email := "a@x.com", user_password := none,
    provider := Provider.Facebook }

/-- A store where `a@x.com` already has a User and a Facebook identity but
no Google identity. -/
def stLinkedFacebook : Store :=
  { users := [u0], identities := [fbIdentRow], nextUserId := 2 }

/-- The store the Google sign-in actually produces from
`stLinkedFacebook`: the merged user update is persisted, the identity table
is untouched. -/
def stAfterGoogleMerge : Store :=
  { users := [applyUpdate u0 (googleUpdateUser 0 gID u0)],
    identities := [fbIdentRow], nextUserId := 2 }

/-- C1: a Google sign-in for an email that already has a (Facebook-linked)
User but no (email, Google) identity takes the `update_profile` branch,
which persists the merged user update and returns the canonical email —
but creates **no** linking identity row: the identity table is unchanged and
still contains no (a@x.com, Google) entry, contradicting the spec's "then
create a new linking Identity for (email, provider)". -/
theorem google_merge_skips_identity_creation :
    create_token_provider Provider.Google gProfile stLinkedFacebook =
      Except.ok ("a@x.com", stAfterGoogleMerge) ∧
    stAfterGoogleMerge.users =
      [applyUpdate u0 (googleUpdateUser 0 gID u0)] ∧
    stAfterGoogleMerge.identities = stLinkedFacebook.identities ∧
    identEmailProviderExists "a@x.com" Provider.Google stAfterGoogleMerge =
      false := by
  refine ⟨?_, by decide, by decide, by decide⟩
  decide

/-- The store a fresh Google sign-up actually produces from the empty
store: one new user and one identity row — recorded under
`Provider::Facebook`. -/
def stAfterGoogleSignup : Store :=
  { users :=
      [{ id := 1, email := "a@x.com", email_verified := false, phone := none,
         phone_verified := false, is_active := true,
         first_name := some "Grace", last_name := some "Hopper",
         middle_name := none, gender := Gender.Undefined, birthdate := none,
         last_login_at := 0, created_at := 0, updated_at := 0 }],
    identities :=
      [{ user_id := 1, user_email := "a@x.com", user_password := none,
         provider := Provider.Facebook }],
    nextUserId := 2 }

/-- C2: a brand-new Google sign-up creates its linking identity through
`create_profile`, which hardcodes `Provider::Facebook`
(`src/services/jwt/mod.rs` line 147): the created identity row records
`Facebook`, not the `Google` the sign-in actually arrived through. -/
theorem provider_signup_identity_hardcodes_facebook :
    create_token_provider Provider.Google gProfile stEmpty =
      Except.ok ("a@x.com", stAfterGoogleSignup) ∧
    stAfterGoogleSignup.identities.map (fun i => i.provider) =
      [Provider.Facebook] ∧
    identEmailProviderExists "a@x.com" Provider.Google stAfterGoogleSignup =
      false := by
  refine ⟨?_, by decide, by decide⟩
  decide

/-! ## Theorems: profile merge -/

/-- C8: merging a provider profile into an existing user keeps each
mergeable field's existing value whenever it is populated (`Some`, or a
gender other than `Undefined`) and adopts the provider's value only when it
is unpopulated.  For Google the gender is always kept (the Google payload
carries none); for Facebook the provider's gender string is parsed exactly
when the user's gender is `Undefined`. -/
theorem provider_merge_keeps_populated_fields (now : Nat) (g : GoogleID)
    (f : FacebookID) (fromStr : String → Option Gender) (user : UserRow) :
    (∀ x, user.first_name = some x →
      (googleUpdateUser now g user).first_name = some x) ∧
    (user.first_name = none →
      (googleUpdateUser now g user).first_name = some g.name) ∧
    (∀ x, user.last_name = some x →
      (googleUpdateUser now g user).last_name = some x) ∧
    (user.last_name = none →
      (googleUpdateUser now g user).last_name = some g.family_name) ∧
    (googleUpdateUser now g user).gender = user.gender ∧
    (∀ upd, facebookUpdateUser now fromStr f user = some upd →
      (∀ x, user.first_name = some x → upd.first_name = some x) ∧
      (user.first_name = none → upd.first_name = some f.first_name) ∧
      (∀ x, user.last_name = some x → upd.last_name = some x) ∧
      (user.last_name = none → upd.last_name = some f.last_name) ∧
      (user.gender ≠ Gender.Undefined → upd.gender = user.gender) ∧
      (user.gender = Gender.Undefined → fromStr f.gender = some upd.gender)) := by
  refine ⟨?_, ?_, ?_, ?_, ?_, ?_⟩
  · intro x hx; simp [googleUpdateUser, hx]
  · intro hx; simp [googleUpdateUser, hx]
  · intro x hx; simp [googleUpdateUser, hx]
  · intro hx; simp [googleUpdateUser, hx]
  · simp [googleUpdateUser]
  · intro upd hupd
    have hfb : facebookUpdateUser now fromStr f user =
        (if user.gender = Gender.Undefined then fromStr f.gender
         else some user.gender).map
          (fun gender =>
            { email := f.email, phone := user.phone,
              first_name := if user.first_name.isNone then some f.first_name
                            else user.first_name,
              last_name := if user.last_name.isNone then some f.last_name
                           else user.last_name,
              middle_name := user.middle_name, gender := gender,
              birthdate := user.birthdate, last_login_at := now }) := rfl
    rw [hfb] at hupd
    by_cases hg : user.gender = Gender.Undefined
    · rw [if_pos hg] at hupd
      cases hfs : fromStr f.gender with
      | none => rw [hfs] at hupd; simp at hupd
      | some gen =>
          rw [hfs] at hupd
          simp only [Option.map] at hupd
          injection hupd with hupd
          subst hupd
          refine ⟨?_, ?_, ?_, ?_, ?_, ?_⟩
          · intro x hx; simp [hx]
          · intro hx; simp [hx]
          · intro x hx; simp [hx]
          · intro hx; simp [hx]
          · intro hne; exact absurd hg hne
          · intro _; rfl
    · rw [if_neg hg] at hupd
      simp only [Option.map] at hupd
      injection hupd with hupd
      subst hupd
      refine ⟨?_, ?_, ?_, ?_, ?_, ?_⟩
      · intro x hx; simp [hx]
      · intro hx; simp [hx]
      · intro x hx; simp [hx]
      · intro hx; simp [hx]
      · intro _; rfl
      · intro hgu; exact absurd hgu hg

/-- A concrete Facebook profile payload for `a@x.com` with gender string
`"male"`. -/
def fID : FacebookID :=
  { id := "f1", email := "a@x.com", gender := "male", first_name := "Fred",
    last_name := "Stone", name := "Fred Stone" }

/-- A concrete stand-in for the missing `Gender::from_str`. -/
def fbGenderParse (s : String) : Option Gender :=
  if s = "male" then some Gender.Male
  else if s = "female" then some Gender.Female
  else none

/-- C8 witness: for a user with first name `"Ann"`, no last name and
`Undefined` gender, the Google merge keeps `"Ann"` and adopts `"Hopper"`,
and the Facebook merge parses the provider's `"male"` into the update's
gender. -/
theorem provider_merge_keeps_populated_fields_witness :
    u0.first_name = some "Ann" ∧
    (googleUpdateUser 0 gID u0).first_name = some "Ann" ∧
    u0.last_name = none ∧
    (googleUpdateUser 0 gID u0).last_name = some "Hopper" ∧
    (∀ upd, facebookUpdateUser 0 fbGenderParse fID u0 = some upd →
      fbGenderParse fID.gender = some upd.gender) ∧
    (facebookUpdateUser 0 fbGenderParse fID u0).map (fun u => u.gender) =
      some Gender.Male := by
  have h := provider_merge_keeps_populated_fields 0 gID fID fbGenderParse u0
  refine ⟨rfl, h.1 "Ann" rfl, rfl, h.2.2.2.1 rfl, ?_, by decide⟩
  intro upd hupd
  exact (h.2.2.2.2.2 upd hupd).2.2.2.2.2 rfl

end UsersSvc
